import Mathlib

/-!
Verification of the WalletReferee repository: a shallow embedding of the
consumer UI (`src/components/Signals.tsx`, the inline `App.tsx` of the
README) and of the signal-generation pipeline described by the design
documents, together with theorems settling the specification claims.
-/

namespace WalletReferee

/-! ## Types from `src/types/signal.ts` -/

/-- `RefStatus` from `src/types/signal.ts`: overall report status. -/
inductive RefStatus
  | ok
  | degraded
  deriving DecidableEq, Repr

/-- `RefDecision` from `src/types/signal.ts`: per-asset recommendation. -/
inductive RefDecision
  | BUY
  | SELL
  | HOLD
  deriving DecidableEq, Repr

/-- `SignalEntry` from `src/types/signal.ts`.  The last field of the source
declaration reads ` : string;  // ISO` with no member name at all; a Lean
structure field needs a name, so it is called `date` here, the name the
schema documents; the literal declared field list is transcribed separately
in `signalEntryDeclaredFields`. -/
structure SignalEntry where
  id : String
  symbol : String
  signal : RefDecision
  confidence : ℚ
  price : Option ℚ
  reason : Option String
  date : String
  deriving DecidableEq, Repr

/-- `SignalFile` from `src/types/signal.ts`. -/
structure SignalFile where
  version : String
  generatedAt : String
  status : RefStatus
  entries : List SignalEntry
  deriving DecidableEq, Repr

/-- The member list of the `SignalEntry` interface exactly as declared in
`src/types/signal.ts`: pairs of (member name, declared type), with `?`
appended to the name of an optional member.  The last declaration line of
the source is ` : string;  // ISO`, i.e. a member with an empty name. -/
def signalEntryDeclaredFields : List (String × String) :=
  [("id", "string"),
   ("symbol", "string"),
   ("signal", "RefDecision"),
   ("confidence", "number"),
   ("price?", "number"),
   ("reason?", "string"),
   ("", "string")]

/-- Modelled from the spec: the entry schema of the output artifact
(the producing script `script/generate_signal.py` is not in the repository
snapshot), as (member name, type) pairs with `?` for optional members:
`{id, symbol, signal, confidence, price?, reason?, date}`. -/
def specEntryFields : List (String × String) :=
  [("id", "string"),
   ("symbol", "string"),
   ("signal", "RefDecision"),
   ("confidence", "number"),
   ("price?", "number"),
   ("reason?", "string"),
   ("date", "string")]

/-! ## The `Signals` component (`src/components/Signals.tsx`)

The component keeps two state cells, `data : SignalFile | null` and
`err : string | null`.  The fetch effect either parses the file and stores
it in `data`, or stores the failure message in `err`.  The render function
returns the error box when `err` is set, the loading box when `data` is
still `null`, and otherwise the report banner plus the sorted table. -/

/-- The sort key of an entry used by the table comparator:
`a.signal === 'BUY' ? -1 : 1`. -/
def buyKey (e : SignalEntry) : Int :=
  if e.signal = RefDecision.BUY then -1 else 1

/-- The comparator passed to `entries.sort` in `Signals.tsx`:
`(a.signal==='BUY'? -1:1) - (b.signal==='BUY'? -1:1)`. -/
def entriesCompare (a b : SignalEntry) : Int :=
  buyKey a - buyKey b

/-- Whether an entry is in the BUY group of the comparator. -/
def isBuyEntry (e : SignalEntry) : Bool :=
  e.signal = RefDecision.BUY

/-- Stable insertion of an element into a list under a JavaScript-style
comparator: the element passes over exactly those prefixes the comparator
orders strictly before it.  This models the placement discipline of the
ECMAScript stable `Array.prototype.sort`. -/
def insertByCompare (cmp : SignalEntry → SignalEntry → Int) (x : SignalEntry) :
    List SignalEntry → List SignalEntry
  | [] => [x]
  | y :: ys => if cmp y x < 0 then y :: insertByCompare cmp x ys else x :: y :: ys

/-- Stable sort under a JavaScript-style comparator, modelling the
ECMAScript (stable since ES2019) `Array.prototype.sort`. -/
def jsStableSort (cmp : SignalEntry → SignalEntry → Int) :
    List SignalEntry → List SignalEntry
  | [] => []
  | x :: xs => insertByCompare cmp x (jsStableSort cmp xs)

/-- The row order displayed by the `Signals` table:
`data.entries.sort((a,b) => ...)`. -/
def sortedEntries (l : List SignalEntry) : List SignalEntry :=
  jsStableSort entriesCompare l

/-- The three mutually exclusive renderings of the `Signals` component. -/
inductive SignalsView
  | errorBox (msg : String)
  | loadingBox
  | reportTable (status : RefStatus) (generatedAt : String) (rows : List SignalEntry)
  deriving DecidableEq, Repr

/-- The render function of `Signals`: `err` is checked first, then missing
`data` renders the loading box, otherwise the report banner (carrying the
file status) and the sorted table are rendered. -/
def renderSignals (err : Option String) (data : Option SignalFile) : SignalsView :=
  match err with
  | some e => SignalsView.errorBox ("Erreur: " ++ e)
  | none =>
    match data with
    | none => SignalsView.loadingBox
    | some d => SignalsView.reportTable d.status d.generatedAt (sortedEntries d.entries)

/-- The state written by the fetch effect of `Signals`: a successful parse
stores the file in `data`, any rejection (unreachable file, malformed body)
stores the message in `err`. -/
def fetchState (outcome : Except String SignalFile) : Option String × Option SignalFile :=
  match outcome with
  | Except.ok f => (none, some f)
  | Except.error e => (some e, none)

/-- The view the component settles on after the fetch effect resolves. -/
def renderOutcome (o : Except String SignalFile) : SignalsView :=
  renderSignals (fetchState o).1 (fetchState o).2

/-! ## `fetchPrices` from the inline `App.tsx` of the README

The price feed loops over the holdings, calls
`https://api.coinpaprika.com/v1/tickers/{id}` for each, throws on a non-ok
response (`HTTP ${status} for ${id}`) or a rejected fetch/parse, converts
`quotes[CUR].price` and `quotes[CUR].percent_change_24h` with `Number`,
replaces non-finite values by `0`, and only after the whole loop succeeds
replaces the `prices` state with the accumulated record; the catch branch
stores the message in the `error` state and leaves `prices` untouched. -/

/-- A JavaScript number as produced by `Number(...)`: finite, `NaN`, or an
infinity. -/
inductive JsNum
  | finite (q : ℚ)
  | nan
  | posInf
  | negInf
  deriving DecidableEq, Repr

/-- `Number(x)` applied to a possibly missing field: a missing property
(`q?.price` on an absent key) is `undefined` and converts to `NaN`. -/
def numberOfOpt : Option JsNum → JsNum
  | none => JsNum.nan
  | some v => v

/-- `Number.isFinite(p) ? p : 0` from `fetchPrices`. -/
def finiteOr0 : JsNum → ℚ
  | JsNum.finite q => q
  | _ => 0

/-- True when `numberOfOpt` of the raw field is not a finite number. -/
def notFiniteRaw (o : Option JsNum) : Bool :=
  match numberOfOpt o with
  | JsNum.finite _ => false
  | _ => true

/-- The `quotes[currency]` object of a provider payload: both fields may be
absent. -/
structure RawQuote where
  price : Option JsNum
  percentChange24h : Option JsNum
  deriving DecidableEq, Repr

/-- Outcome of one ticker request in `fetchPrices`: a non-ok HTTP status,
a rejected fetch or JSON parse, or a parsed payload whose
`quotes[currency]` object may itself be absent. -/
inductive TickerOutcome
  | httpError (status : Nat)
  | rejected (msg : String)
  | payload (quote : Option RawQuote)
  deriving DecidableEq, Repr

/-- `Holding` from `App.tsx`. -/
structure Holding where
  id : String
  ticker : String
  quantity : ℚ
  buyPrice : ℚ
  deriving DecidableEq, Repr

/-- `PriceInfo` from `App.tsx`. -/
structure PriceInfo where
  id : String
  currentPrice : ℚ
  change24h : ℚ
  deriving DecidableEq, Repr

/-- The `PriceInfo` stored for one holding from its parsed payload:
`{id, currentPrice: Number.isFinite(p) ? p : 0, change24h: Number.isFinite(ch) ? ch : 0}`. -/
def mkPriceInfo (id : String) (q : Option RawQuote) : PriceInfo :=
  { id := id
    currentPrice := finiteOr0 (numberOfOpt (q.bind RawQuote.price))
    change24h := finiteOr0 (numberOfOpt (q.bind RawQuote.percentChange24h)) }

/-- `next[h.id] = info` on a record modelled as an association list:
overwrite an existing key, otherwise append. -/
def recordSet (m : List (String × PriceInfo)) (k : String) (v : PriceInfo) :
    List (String × PriceInfo) :=
  if m.any (fun kv => kv.1 == k) then
    m.map (fun kv => if kv.1 == k then (k, v) else kv)
  else
    m ++ [(k, v)]

/-- The `for (const h of holdings)` loop of `fetchPrices`: the first non-ok
response or rejection throws out of the loop; a parsed payload stores its
`PriceInfo` into the accumulator. -/
def fetchLoop (env : String → TickerOutcome) :
    List Holding → List (String × PriceInfo) → Except String (List (String × PriceInfo))
  | [], acc => Except.ok acc
  | h :: rest, acc =>
    match env h.id with
    | TickerOutcome.httpError s =>
        Except.error ("HTTP " ++ toString s ++ " for " ++ h.id)
    | TickerOutcome.rejected m => Except.error m
    | TickerOutcome.payload q =>
        fetchLoop env rest (recordSet acc h.id (mkPriceInfo h.id q))

/-- The `prices` and `error` state cells of `App`. -/
structure PricesState where
  prices : List (String × PriceInfo)
  error : Option String
  deriving DecidableEq, Repr

/-- `fetchPrices`: on success the whole accumulated record replaces
`prices` and `error` stays cleared; on a throw the catch branch sets
`error` and `prices` keeps its previous value. -/
def fetchPrices (env : String → TickerOutcome) (holdings : List Holding)
    (st : PricesState) : PricesState :=
  match fetchLoop env holdings [] with
  | Except.ok next => { prices := next, error := none }
  | Except.error m => { prices := st.prices, error := some m }

/-- Whether one ticker request makes the loop throw. -/
def outcomeFails : TickerOutcome → Bool
  | TickerOutcome.httpError _ => true
  | TickerOutcome.rejected _ => true
  | TickerOutcome.payload _ => false

/-! ## The generation pipeline

`script/generate_signal.py` is not part of the repository snapshot; the
indicator engine, the decision scorer and the report builder below are
modelled from the specification, over chronological lists of rational
closes (most recent last). -/

/-- The last `n` closes of a chronological series. -/
def lastN (n : ℕ) (l : List ℚ) : List ℚ :=
  l.drop (l.length - n)

/-- Modelled from the spec: simple moving average of the last `n` closes
(`script/generate_signal.py` is missing); `null` when the series is
shorter than `n`. -/
def sma (n : ℕ) (l : List ℚ) : Option ℚ :=
  if l.length < n ∨ n = 0 then none
  else some ((lastN n l).sum / (n : ℚ))

/-- The period-to-period close differences of a series. -/
def diffs (l : List ℚ) : List ℚ :=
  (l.zip l.tail).map (fun p => p.2 - p.1)

/-- Wilder smoothing over `period`: seed with the arithmetic mean of the
first `period` samples, then fold
`a ↦ (a * (period - 1) + x) / period` over the rest. -/
def wilderAvg (period : ℕ) (xs : List ℚ) : ℚ :=
  let seed := (xs.take period).sum / (period : ℚ)
  (xs.drop period).foldl (fun a x => (a * ((period : ℚ) - 1) + x) / (period : ℚ)) seed

/-- Modelled from the spec: Wilder RSI over a 14-period window
(`script/generate_signal.py` is missing); `null` when fewer than 15 closes
are available, the conventional 100 when the average loss is zero. -/
def rsi14 (l : List ℚ) : Option ℚ :=
  if l.length < 15 then none
  else
    let d := diffs l
    let ag := wilderAvg 14 (d.map (fun x => max x 0))
    let al := wilderAvg 14 (d.map (fun x => max (-x) 0))
    if al = 0 then some 100 else some (100 - 100 / (1 + ag / al))

/-- Modelled from the spec: SMA50 of the series; `null` below 50 closes. -/
def sma50 (l : List ℚ) : Option ℚ :=
  sma 50 l

/-- Modelled from the spec: percent change of SMA50 versus the SMA50
computed 5 periods earlier (`script/generate_signal.py` is missing);
`null` when either point is unavailable or the earlier SMA is zero. -/
def sma50Slope (l : List ℚ) : Option ℚ :=
  match sma 50 l, sma 50 (l.take (l.length - 5)) with
  | some now, some prev => if prev = 0 then none else some ((now - prev) / prev * 100)
  | _, _ => none

/-- Running exponential moving average continued from `prev` with
smoothing factor `a`. -/
def emaFrom (a : ℚ) (prev : ℚ) : List ℚ → List ℚ
  | [] => []
  | x :: xs =>
    let e := a * x + (1 - a) * prev
    e :: emaFrom a e xs

/-- EMA series over period `n` (smoothing `2 / (n + 1)`), seeded at the
first sample. -/
def emaSeries (n : ℕ) : List ℚ → List ℚ
  | [] => []
  | x :: xs => x :: emaFrom (2 / ((n : ℚ) + 1)) x xs

/-- MACD histogram cross state between the last two periods. -/
inductive CrossState
  | bull
  | bear
  | none
  deriving DecidableEq, Repr

/-- The `macd` block of an `IndicatorSet`:
`{macd, signal, hist, cross}` as in `SignalsByAsset` of `App.tsx`. -/
structure MacdSet where
  macd : Option ℚ
  signal : Option ℚ
  hist : Option ℚ
  cross : CrossState
  deriving DecidableEq, Repr

/-- Modelled from the spec: MACD line EMA12 − EMA26, signal line EMA9 of
the MACD line, histogram their difference, and the bull/bear cross of the
histogram between the last two periods (`script/generate_signal.py` is
missing).  The line is `null` below 26 closes, signal and histogram below
34, the cross needs one more period. -/
def macdOf (l : List ℚ) : MacdSet :=
  let line := List.zipWith (fun a b => a - b) (emaSeries 12 l) (emaSeries 26 l)
  let sig := emaSeries 9 line
  let hists := List.zipWith (fun a b => a - b) line sig
  let m := if l.length < 26 then Option.none else line.getLast?
  let s := if l.length < 34 then Option.none else sig.getLast?
  let h := if l.length < 34 then Option.none else hists.getLast?
  let cross :=
    if l.length < 35 then CrossState.none
    else
      match hists.getLast?, hists.dropLast.getLast? with
      | some h1, some h0 =>
          if h0 < 0 ∧ 0 ≤ h1 then CrossState.bull
          else if 0 ≤ h0 ∧ h1 < 0 then CrossState.bear
          else CrossState.none
      | _, _ => CrossState.none
  ⟨m, s, h, cross⟩

/-- Rational square-root approximation used for the Bollinger standard
deviation (the spec works over real prices; a computable stand-in). -/
def sqrtQ (q : ℚ) : ℚ :=
  ((Nat.sqrt (Int.toNat ⌊q * 1000000000000⌋) : ℚ)) / 1000000

/-- Modelled from the spec: Bollinger %B and bandwidth over a 20-period
window with 2 standard deviations (`script/generate_signal.py` is
missing).  Both are `null` below 20 closes; %B is defined only when the
bandwidth is positive, the width only when the middle band is nonzero. -/
def bollingerCalc (l : List ℚ) : Option ℚ × Option ℚ :=
  if l.length < 20 then (Option.none, Option.none)
  else
    let w := lastN 20 l
    let mid := w.sum / 20
    let sd := sqrtQ ((w.map (fun x => (x - mid) ^ 2)).sum / 20)
    let upper := mid + 2 * sd
    let lower := mid - 2 * sd
    let pb :=
      match l.getLast? with
      | some c => if lower < upper then some ((c - lower) / (upper - lower)) else Option.none
      | none => Option.none
    let wd := if mid = 0 then Option.none else some ((upper - lower) / mid)
    (pb, wd)

/-- Modelled from the spec: 14-period average true range divided by the
current close, close-to-close proxy (`script/generate_signal.py` is
missing); `null` below 15 closes or on a zero close. -/
def atrPct (l : List ℚ) : Option ℚ :=
  if l.length < 15 then none
  else
    let trs := (diffs l).map (fun x => |x|)
    let atr := wilderAvg 14 trs
    match l.getLast? with
    | some c => if c = 0 then none else some (atr / c)
    | none => none

/-- The per-asset indicator record, mirroring
`SignalsByAsset.signals[id].indicators` of `App.tsx`. -/
structure IndicatorSet where
  rsi14 : Option ℚ
  sma50 : Option ℚ
  sma50Slope : Option ℚ
  macd : MacdSet
  bbPctB : Option ℚ
  bbWidth : Option ℚ
  atrPct : Option ℚ
  deriving DecidableEq, Repr

/-- Modelled from the spec: the pure indicator engine
`computeIndicators(series) -> IndicatorSet`
(`script/generate_signal.py` is missing). -/
def computeIndicators (l : List ℚ) : IndicatorSet :=
  { rsi14 := rsi14 l
    sma50 := sma50 l
    sma50Slope := sma50Slope l
    macd := macdOf l
    bbPctB := (bollingerCalc l).1
    bbWidth := (bollingerCalc l).2
    atrPct := atrPct l }

/-! ## Decision scorer (modelled from the spec) -/

/-- Modelled from the spec: RSI rule — below 30 bullish, above 70
bearish. -/
def ruleRSI (r : ℚ) : ℚ :=
  if r < 30 then 1 else if 70 < r then -1 else 0

/-- Modelled from the spec: MACD cross rule — a bull cross is a strong
bullish contribution, a bear cross a strong bearish one. -/
def ruleMacdCross : CrossState → ℚ
  | CrossState.bull => 1
  | CrossState.bear => -1
  | CrossState.none => 0

/-- Modelled from the spec: Bollinger %B rule — near 0 oversold bullish,
near 1 overbought bearish. -/
def rulePctB (b : ℚ) : ℚ :=
  if b < 1 / 10 then 1 else if 9 / 10 < b then -1 else 0

/-- Modelled from the spec: SMA50 slope rule — a positive slope is a mild
bullish bias, a negative slope a mild bearish one. -/
def ruleSlope (s : ℚ) : ℚ :=
  if 0 < s then 1 / 2 else if s < 0 then -(1 / 2) else 0

/-- Modelled from the spec: fixed positive indicator weights of the
scoring configuration. -/
def wRSI : ℚ := 1

/-- Modelled from the spec: weight of the MACD contribution. -/
def wMACD : ℚ := 6 / 5

/-- Modelled from the spec: weight of the Bollinger contribution. -/
def wBB : ℚ := 1

/-- Modelled from the spec: weight of the slope contribution. -/
def wSlope : ℚ := 4 / 5

/-- Modelled from the spec: the applicable (non-`null`) indicator
contributions of an `IndicatorSet` as (name, weight, sub-score) triples;
`null` indicators are excluded, so their weight is not counted.  The MACD
contribution is applicable when the histogram is available. -/
def applicableParts (ind : IndicatorSet) : List (String × ℚ × ℚ) :=
  (match ind.rsi14 with
   | some r => [("rsi14", wRSI, ruleRSI r)]
   | none => []) ++
  (match ind.macd.hist with
   | some _ => [("macd", wMACD, ruleMacdCross ind.macd.cross)]
   | none => []) ++
  (match ind.bbPctB with
   | some b => [("bb_pctb", wBB, rulePctB b)]
   | none => []) ++
  (match ind.sma50Slope with
   | some s => [("sma50_slope", wSlope, ruleSlope s)]
   | none => [])

/-- Modelled from the spec: the composite score — weighted sum of the
applicable contributions divided by the sum of the applicable weights,
and 0 when no indicator is applicable. -/
def scoreOf (ind : IndicatorSet) : ℚ :=
  let ps := applicableParts ind
  let den := (ps.map (fun p => p.2.1)).sum
  if den = 0 then 0 else (ps.map (fun p => p.2.1 * p.2.2)).sum / den

/-- Modelled from the spec: fixed BUY threshold of the configuration. -/
def buyThreshold : ℚ := 3 / 10

/-- Modelled from the spec: fixed SELL threshold of the configuration. -/
def sellThreshold : ℚ := 3 / 10

/-- Modelled from the spec: `score ≥ buyThreshold → BUY`,
`score ≤ -sellThreshold → SELL`, otherwise `HOLD`. -/
def decisionOf (score : ℚ) : RefDecision :=
  if buyThreshold ≤ score then RefDecision.BUY
  else if score ≤ -sellThreshold then RefDecision.SELL
  else RefDecision.HOLD

/-- Modelled from the spec: the confidence percentage
`round(abs(score) * 100)`. -/
def percentOf (score : ℚ) : ℤ :=
  round (|score| * 100)

/-! ## Report builder (modelled from the spec) -/

/-- Modelled from the spec: the per-asset outcome collected by the report
builder (`script/generate_signal.py` is missing) — either a successful
entry or a per-asset error string. -/
inductive AssetResult
  | success (entry : SignalEntry)
  | failure (err : String)
  deriving DecidableEq, Repr

/-- Whether an `AssetResult` is the successful variant. -/
def AssetResult.isSuccess : AssetResult → Bool
  | AssetResult.success _ => true
  | AssetResult.failure _ => false

/-- Modelled from the spec: the status derivation of the report builder —
`ok` when every configured asset produced a successful result, otherwise
`degraded`. -/
def reportStatus (results : List AssetResult) : RefStatus :=
  if results.all AssetResult.isSuccess then RefStatus.ok else RefStatus.degraded

/-- Modelled from the spec: the report builder — version `"1"`, the
assembly timestamp, the derived status, and the successful entries in
configured order. -/
def buildReport (generatedAt : String) (results : List AssetResult) : SignalFile :=
  { version := "1"
    generatedAt := generatedAt
    status := reportStatus results
    entries := results.filterMap (fun r =>
      match r with
      | AssetResult.success e => some e
      | AssetResult.failure _ => none) }

/-! ## Concrete data shared by witnesses and counterexamples -/

/-- A concrete HOLD entry. -/
def demoHold : SignalEntry :=
  ⟨"sol-solana", "SOL", RefDecision.HOLD, 1 / 2, none, none, "2025-11-03"⟩

/-- A concrete BUY entry. -/
def demoBuy : SignalEntry :=
  ⟨"btc-bitcoin", "BTC", RefDecision.BUY, 4 / 5, some 30000, some "macd bull", "2025-11-03"⟩

/-- A concrete degraded report file. -/
def demoFile : SignalFile :=
  ⟨"1", "2025-11-03T05:10:00Z", RefStatus.degraded, [demoHold, demoBuy]⟩

/-- A concrete ticker environment where the bitcoin request gets HTTP 500
and every other request succeeds with an empty payload. -/
def demoEnv : String → TickerOutcome := fun id =>
  if id = "btc-bitcoin" then TickerOutcome.httpError 500 else TickerOutcome.payload none

/-- A concrete holding whose ticker request fails under `demoEnv`. -/
def demoFailHolding : Holding := ⟨"btc-bitcoin", "BTC", 1 / 10, 30000⟩

/-- A concrete holding whose ticker request succeeds under `demoEnv`. -/
def demoOkHolding : Holding := ⟨"eth-ethereum", "ETH", 1, 1800⟩

/-- A concrete two-holding portfolio whose first request fails under
`demoEnv`. -/
def demoHoldings : List Holding := [demoFailHolding, demoOkHolding]

/-- A concrete initial state with empty prices and no error. -/
def demoState : PricesState := ⟨[], none⟩

/-- A concrete quote whose price field is missing and whose 24h change is
`NaN`. -/
def demoQuote : Option RawQuote := some ⟨none, some JsNum.nan⟩

/-- A concrete environment where every request yields `demoQuote`. -/
def demoQuoteEnv : String → TickerOutcome := fun _ => TickerOutcome.payload demoQuote

/-! ## Claim theorems -/

/-- C1: for every run over the configured asset list, the produced
report's status is `ok` if and only if every asset produced a successful
`AssetResult`, and any single failing asset forces `degraded`. -/
theorem report_status_ok_iff (generatedAt : String) (results : List AssetResult) :
    ((buildReport generatedAt results).status = RefStatus.ok ↔
      ∀ r ∈ results, AssetResult.isSuccess r = true) ∧
    (∀ r ∈ results, AssetResult.isSuccess r = false →
      (buildReport generatedAt results).status = RefStatus.degraded) := by
  have hstat : (buildReport generatedAt results).status = reportStatus results := rfl
  by_cases h : results.all AssetResult.isSuccess = true
  · have hok : reportStatus results = RefStatus.ok := by
      unfold reportStatus
      rw [if_pos h]
    have hall := List.all_eq_true.mp h
    refine ⟨⟨fun _ => hall, fun _ => by rw [hstat, hok]⟩, ?_⟩
    intro r hr hf
    have hT := hall r hr
    rw [hf] at hT
    exact absurd hT (by decide)
  · have hdeg : reportStatus results = RefStatus.degraded := by
      unfold reportStatus
      rw [if_neg h]
    rw [hstat, hdeg]
    refine ⟨⟨fun hco => RefStatus.noConfusion hco, ?_⟩, fun r hr hf => rfl⟩
    intro hall
    exact absurd (List.all_eq_true.mpr hall) h

/-- C1 witness: a one-asset run whose only asset failed is degraded. -/
theorem report_status_ok_iff_witness :
    (buildReport "2025-11-03T05:10:00Z" [AssetResult.failure "HTTP 500"]).status =
      RefStatus.degraded :=
  (report_status_ok_iff "2025-11-03T05:10:00Z" [AssetResult.failure "HTTP 500"]).2
    (AssetResult.failure "HTTP 500") (by simp) (by decide)

/-- C2: the `Signals` component renders a rejected fetch as the generic
error box, renders a successfully parsed file — in particular a
`degraded` one — as the report table carrying the file's status, the two
renderings are distinct, and the render function is total in both
cases. -/
theorem signals_render_distinguishes (e : String) (f : SignalFile) :
    renderOutcome (Except.error e) = SignalsView.errorBox ("Erreur: " ++ e) ∧
    renderOutcome (Except.ok f) =
      SignalsView.reportTable f.status f.generatedAt (sortedEntries f.entries) ∧
    renderOutcome (Except.error e) ≠ renderOutcome (Except.ok f) := by
  refine ⟨rfl, rfl, ?_⟩
  intro h
  simp only [renderOutcome, fetchState, renderSignals] at h
  exact SignalsView.noConfusion h

/-- C2 witness: a concrete rejected fetch and a concrete parsed degraded
file render differently. -/
theorem signals_render_distinguishes_witness :
    renderOutcome (Except.error "TypeError: Failed to fetch") ≠
      renderOutcome (Except.ok demoFile) :=
  (signals_render_distinguishes "TypeError: Failed to fetch" demoFile).2.2

/-- C4: the member list of the `SignalEntry` interface declared in
`src/types/signal.ts` does not match the documented artifact schema: the
source declares a member with an empty name where the schema requires
`date`. -/
theorem signal_entry_schema_mismatch :
    signalEntryDeclaredFields ≠ specEntryFields ∧
    "date" ∉ signalEntryDeclaredFields.map Prod.fst ∧
    "" ∈ signalEntryDeclaredFields.map Prod.fst ∧
    "date" ∈ specEntryFields.map Prod.fst ∧
    signalEntryDeclaredFields.map Prod.fst ≠ specEntryFields.map Prod.fst := by
  refine ⟨by decide, by decide, by decide, by decide, by decide⟩

/-! ## Lemmas about the table comparator and the stable sort -/

/-- The comparator value is determined by the two BUY flags. -/
lemma entriesCompare_eval (a b : SignalEntry) :
    entriesCompare a b =
      (if isBuyEntry a then (-1 : Int) else 1) - (if isBuyEntry b then (-1 : Int) else 1) := by
  unfold entriesCompare buyKey isBuyEntry
  by_cases ha : a.signal = RefDecision.BUY <;>
    by_cases hb : b.signal = RefDecision.BUY <;> simp [ha, hb]

/-- Same-group pairs compare equal. -/
lemma entriesCompare_same_group (a b : SignalEntry) (h : isBuyEntry a = isBuyEntry b) :
    entriesCompare a b = 0 := by
  rw [entriesCompare_eval, h]
  omega

/-- Stable insertion passes over a strictly-smaller prefix. -/
lemma insertByCompare_append_lt (x : SignalEntry) (B O : List SignalEntry)
    (hB : ∀ y ∈ B, entriesCompare y x < 0) :
    insertByCompare entriesCompare x (B ++ O) = B ++ insertByCompare entriesCompare x O := by
  induction B with
  | nil => rfl
  | cons y ys ih =>
    simp only [List.cons_append, insertByCompare, List.append_eq]
    rw [if_pos (hB y (by simp)), ih (fun z hz => hB z (by simp [hz]))]

/-- Stable insertion stops in front of a list no element of which is
strictly smaller. -/
lemma insertByCompare_front (x : SignalEntry) (O : List SignalEntry)
    (hO : ∀ y ∈ O, ¬ entriesCompare y x < 0) :
    insertByCompare entriesCompare x O = x :: O := by
  cases O with
  | nil => rfl
  | cons y ys =>
    simp only [insertByCompare]
    rw [if_neg (hO y (by simp))]

/-- The displayed order is the BUY group followed by the non-BUY group,
each in original order. -/
lemma sortedEntries_eq_filter (l : List SignalEntry) :
    sortedEntries l = l.filter isBuyEntry ++ l.filter (fun e => ! isBuyEntry e) := by
  unfold sortedEntries
  induction l with
  | nil => rfl
  | cons x xs ih =>
    simp only [jsStableSort]
    rw [ih]
    by_cases hx : isBuyEntry x = true
    · rw [List.filter_cons_of_pos (by simp [hx]), List.filter_cons_of_neg (by simp [hx])]
      rw [insertByCompare_front]
      · simp
      · intro y hy
        rcases List.mem_append.mp hy with h | h
        · have hyb : isBuyEntry y = true := (List.mem_filter.mp h).2
          rw [entriesCompare_eval, hyb, hx]
          decide
        · have hyo : isBuyEntry y = false := by
            have := (List.mem_filter.mp h).2
            simpa using this
          rw [entriesCompare_eval, hyo, hx]
          decide
    · have hx2 : isBuyEntry x = false := by simpa using hx
      rw [List.filter_cons_of_neg (by simp [hx2]), List.filter_cons_of_pos (by simp [hx2])]
      rw [insertByCompare_append_lt]
      · rw [insertByCompare_front]
        intro y hy
        have hyo : isBuyEntry y = false := by
          have := (List.mem_filter.mp hy).2
          simpa using this
        rw [entriesCompare_eval, hyo, hx2]
        decide
      · intro y hy
        have hyb : isBuyEntry y = true := (List.mem_filter.mp hy).2
        rw [entriesCompare_eval, hyb, hx2]
        decide

/-- In a BUY block followed by a non-BUY block, everything after a
non-BUY element is non-BUY. -/
lemma no_buy_after (B O : List SignalEntry)
    (hB : ∀ e ∈ B, isBuyEntry e = true) (hO : ∀ e ∈ O, isBuyEntry e = false) :
    ∀ (pre rest : List SignalEntry) (x : SignalEntry),
      B ++ O = pre ++ x :: rest → isBuyEntry x = false →
      ∀ y ∈ rest, isBuyEntry y = false := by
  induction B with
  | nil =>
    intro pre rest x hsplit hx y hy
    refine hO y ?_
    rw [List.nil_append] at hsplit
    rw [hsplit]
    exact List.mem_append.mpr (Or.inr (List.mem_cons.mpr (Or.inr hy)))
  | cons b B2 ih =>
    intro pre rest x hsplit hx y hy
    cases pre with
    | nil =>
      simp only [List.cons_append, List.nil_append] at hsplit
      have hbx : b = x := (List.cons.injEq _ _ _ _ ▸ hsplit).1
      have := hB b (by simp)
      rw [hbx, hx] at this
      exact absurd this (by decide)
    | cons p pre2 =>
      simp only [List.cons_append] at hsplit
      have htail : B2 ++ O = pre2 ++ x :: rest := (List.cons.injEq _ _ _ _ ▸ hsplit).2
      exact ih (fun e he => hB e (by simp [he])) pre2 rest x htail hx y hy

/-- C8: the `Signals` table displays `data.entries` stably sorted so that
the BUY group precedes the non-BUY group with the original order kept
inside each group, the comparator returns 0 on same-group pairs, and the
displayed order differs from the artifact order whenever a BUY entry
follows a non-BUY entry. -/
theorem signals_sort_buys_first (l : List SignalEntry) :
    sortedEntries l = l.filter isBuyEntry ++ l.filter (fun e => ! isBuyEntry e) ∧
    (∀ a b, isBuyEntry a = isBuyEntry b → entriesCompare a b = 0) ∧
    (∀ (pre mid post : List SignalEntry) (x y : SignalEntry),
      l = pre ++ x :: (mid ++ y :: post) → isBuyEntry x = false → isBuyEntry y = true →
      sortedEntries l ≠ l) := by
  refine ⟨sortedEntries_eq_filter l, fun a b h => entriesCompare_same_group a b h, ?_⟩
  intro pre mid post x y hsplit hx hy heq
  have hdec := sortedEntries_eq_filter l
  rw [heq] at hdec
  have hB : ∀ e ∈ l.filter isBuyEntry, isBuyEntry e = true :=
    fun e he => (List.mem_filter.mp he).2
  have hO : ∀ e ∈ l.filter (fun e => ! isBuyEntry e), isBuyEntry e = false := by
    intro e he
    have := (List.mem_filter.mp he).2
    simpa using this
  have hrest := no_buy_after (l.filter isBuyEntry) (l.filter (fun e => ! isBuyEntry e))
    hB hO pre (mid ++ y :: post) x (hdec.symm.trans hsplit) hx
  have hyF := hrest y (List.mem_append.mpr (Or.inr (List.mem_cons.mpr (Or.inl rfl))))
  rw [hy] at hyF
  exact absurd hyF (by decide)

/-- C8 witness: a HOLD entry followed by a BUY entry is displayed in the
opposite order. -/
theorem signals_sort_buys_first_witness :
    sortedEntries [demoHold, demoBuy] ≠ [demoHold, demoBuy] :=
  (signals_sort_buys_first [demoHold, demoBuy]).2.2 [] [] [] demoHold demoBuy rfl
    (by decide) (by decide)

/-! ## Lemmas about the `fetchPrices` loop -/

/-- A failing request at the head of the loop throws at once, with a
message independent of the remaining holdings and the accumulator. -/
lemma fetchLoop_head_fails (env : String → TickerOutcome) (h : Holding)
    (hfail : outcomeFails (env h.id) = true) :
    ∃ m, ∀ (rest : List Holding) (acc : List (String × PriceInfo)),
      fetchLoop env (h :: rest) acc = Except.error m := by
  cases henv : env h.id with
  | httpError s =>
    exact ⟨"HTTP " ++ toString s ++ " for " ++ h.id,
      fun rest acc => by simp [fetchLoop, henv]⟩
  | rejected m => exact ⟨m, fun rest acc => by simp [fetchLoop, henv]⟩
  | payload q =>
    rw [henv] at hfail
    simp [outcomeFails] at hfail

/-- A prefix of succeeding requests only advances the accumulator. -/
lemma fetchLoop_ok_prefix (env : String → TickerOutcome) :
    ∀ (pre : List Holding) (acc : List (String × PriceInfo)),
      (∀ p ∈ pre, outcomeFails (env p.id) = false) →
      ∃ acc2, ∀ tail, fetchLoop env (pre ++ tail) acc = fetchLoop env tail acc2 := by
  intro pre
  induction pre with
  | nil => exact fun acc _ => ⟨acc, fun tail => rfl⟩
  | cons p pre2 ih =>
    intro acc hok
    cases henv : env p.id with
    | httpError s =>
      have := hok p (by simp)
      rw [henv] at this
      simp [outcomeFails] at this
    | rejected m =>
      have := hok p (by simp)
      rw [henv] at this
      simp [outcomeFails] at this
    | payload q =>
      rcases ih (recordSet acc p.id (mkPriceInfo p.id q))
          (fun z hz => hok z (by simp [hz])) with ⟨acc2, hacc2⟩
      exact ⟨acc2, fun tail => by
        simp only [List.cons_append, fetchLoop, henv]
        exact hacc2 tail⟩

/-- If any holding in the list fails, the whole loop throws. -/
lemma fetchLoop_error_of_fail (env : String → TickerOutcome) :
    ∀ (holdings : List Holding) (acc : List (String × PriceInfo)),
      (∃ hd ∈ holdings, outcomeFails (env hd.id) = true) →
      ∃ m, fetchLoop env holdings acc = Except.error m := by
  intro holdings
  induction holdings with
  | nil =>
    intro acc hex
    rcases hex with ⟨hd, hmem, _⟩
    exact absurd hmem (by simp)
  | cons h0 rest ih =>
    intro acc hex
    cases henv : env h0.id with
    | httpError s =>
      exact ⟨"HTTP " ++ toString s ++ " for " ++ h0.id, by simp [fetchLoop, henv]⟩
    | rejected m => exact ⟨m, by simp [fetchLoop, henv]⟩
    | payload q =>
      rcases hex with ⟨hd, hmem, hfail⟩
      rcases List.mem_cons.mp hmem with rfl | hmem2
      · rw [henv] at hfail
        simp [outcomeFails] at hfail
      · rcases ih (recordSet acc h0.id (mkPriceInfo h0.id q)) ⟨hd, hmem2, hfail⟩ with ⟨m, hm⟩
        exact ⟨m, by simp [fetchLoop, henv, hm]⟩

/-- C9: if any holding's request fails, `fetchPrices` leaves the `prices`
state entirely unchanged — results already fetched in the same run are
discarded — and sets the error state instead. -/
theorem fetchPrices_failure_discards (env : String → TickerOutcome)
    (holdings : List Holding) (st : PricesState)
    (hex : ∃ hd ∈ holdings, outcomeFails (env hd.id) = true) :
    (fetchPrices env holdings st).prices = st.prices ∧
    (fetchPrices env holdings st).error.isSome = true := by
  rcases fetchLoop_error_of_fail env holdings [] hex with ⟨m, hm⟩
  unfold fetchPrices
  rw [hm]
  exact ⟨rfl, rfl⟩

/-- C9 witness: a concrete two-holding run whose first request gets
HTTP 500 keeps the previous empty prices and records an error. -/
theorem fetchPrices_failure_discards_witness :
    (∃ hd ∈ demoHoldings, outcomeFails (demoEnv hd.id) = true) ∧
    (fetchPrices demoEnv demoHoldings demoState).prices = demoState.prices ∧
    (fetchPrices demoEnv demoHoldings demoState).error.isSome = true :=
  ⟨by decide, fetchPrices_failure_discards demoEnv demoHoldings demoState (by decide)⟩

/-- C10: a provider payload whose `price` or `percent_change_24h` is
missing or not a finite number is stored with that field silently
defaulted to 0, and no error is recorded for the run. -/
theorem fetchPrices_nonfinite_defaults_zero (id : String) (q : Option RawQuote) :
    (notFiniteRaw (q.bind RawQuote.price) = true → (mkPriceInfo id q).currentPrice = 0) ∧
    (notFiniteRaw (q.bind RawQuote.percentChange24h) = true →
      (mkPriceInfo id q).change24h = 0) ∧
    (∀ (h : Holding) (st : PricesState) (env : String → TickerOutcome),
      env h.id = TickerOutcome.payload q →
      (fetchPrices env [h] st).error = none ∧
      (fetchPrices env [h] st).prices = [(h.id, mkPriceInfo h.id q)]) := by
  refine ⟨?_, ?_, ?_⟩
  · intro hbad
    unfold notFiniteRaw at hbad
    cases hnum : numberOfOpt (q.bind RawQuote.price) with
    | finite r =>
      rw [hnum] at hbad
      simp at hbad
    | nan => simp [mkPriceInfo, finiteOr0, hnum]
    | posInf => simp [mkPriceInfo, finiteOr0, hnum]
    | negInf => simp [mkPriceInfo, finiteOr0, hnum]
  · intro hbad
    unfold notFiniteRaw at hbad
    cases hnum : numberOfOpt (q.bind RawQuote.percentChange24h) with
    | finite r =>
      rw [hnum] at hbad
      simp at hbad
    | nan => simp [mkPriceInfo, finiteOr0, hnum]
    | posInf => simp [mkPriceInfo, finiteOr0, hnum]
    | negInf => simp [mkPriceInfo, finiteOr0, hnum]
  · intro h st env henv
    constructor
    · simp [fetchPrices, fetchLoop, henv, recordSet]
    · simp [fetchPrices, fetchLoop, henv, recordSet]

/-- C10 witness: a payload with a missing price and a `NaN` 24h change is
stored as zeros with no error recorded. -/
theorem fetchPrices_nonfinite_defaults_zero_witness :
    (mkPriceInfo "xrp-xrp" demoQuote).currentPrice = 0 ∧
    (mkPriceInfo "xrp-xrp" demoQuote).change24h = 0 ∧
    (fetchPrices demoQuoteEnv [demoOkHolding] demoState).error = none :=
  ⟨(fetchPrices_nonfinite_defaults_zero "xrp-xrp" demoQuote).1 (by decide),
   (fetchPrices_nonfinite_defaults_zero "xrp-xrp" demoQuote).2.1 (by decide),
   ((fetchPrices_nonfinite_defaults_zero demoOkHolding.id demoQuote).2.2 demoOkHolding
     demoState demoQuoteEnv rfl).1⟩

/-- C3 counterexample: under `demoEnv` the first holding's request gets
HTTP 500 while the second holding's request would succeed, yet the run
produces no per-asset result at all for the second holding — the failure
aborts the whole `fetchPrices` run instead of failing only that asset. -/
theorem fetchPrices_per_asset_tolerance_counterexample :
    outcomeFails (demoEnv demoOkHolding.id) = false ∧
    (fetchPrices demoEnv demoHoldings demoState).prices.lookup demoOkHolding.id = none ∧
    (fetchPrices demoEnv demoHoldings demoState).prices = [] ∧
    (fetchPrices demoEnv demoHoldings demoState).error =
      some ("HTTP " ++ toString 500 ++ " for " ++ demoFailHolding.id) := by
  refine ⟨by decide, by decide, by decide, by decide⟩

/-- C3 amended: in `fetchPrices`, a non-2xx response or malformed payload
for one asset aborts the rest of the run — the outcome does not depend on
the requests of the holdings after the failing one, the `prices` state is
left unchanged, and the error state is set. -/
theorem fetchPrices_first_failure_aborts (env : String → TickerOutcome)
    (pre rest : List Holding) (h : Holding) (st : PricesState)
    (hpre : ∀ p ∈ pre, outcomeFails (env p.id) = false)
    (hfail : outcomeFails (env h.id) = true) :
    (∀ rest2, fetchPrices env (pre ++ h :: rest) st = fetchPrices env (pre ++ h :: rest2) st) ∧
    (fetchPrices env (pre ++ h :: rest) st).prices = st.prices ∧
    (fetchPrices env (pre ++ h :: rest) st).error.isSome = true := by
  rcases fetchLoop_ok_prefix env pre [] hpre with ⟨acc2, hacc2⟩
  rcases fetchLoop_head_fails env h hfail with ⟨m, hm⟩
  have hrun : ∀ r : List Holding,
      fetchLoop env (pre ++ h :: r) [] = Except.error m := by
    intro r
    rw [hacc2 (h :: r), hm r acc2]
  refine ⟨?_, ?_, ?_⟩
  · intro rest2
    unfold fetchPrices
    rw [hrun rest, hrun rest2]
  · unfold fetchPrices
    rw [hrun rest]
  · unfold fetchPrices
    rw [hrun rest]
    rfl

/-- C3 amended witness: a succeeding holding followed by the failing
bitcoin holding — the run keeps the old prices and records the error. -/
theorem fetchPrices_first_failure_aborts_witness :
    (fetchPrices demoEnv ([demoOkHolding] ++ demoFailHolding :: []) demoState).prices =
      demoState.prices ∧
    (fetchPrices demoEnv ([demoOkHolding] ++ demoFailHolding :: []) demoState).error.isSome =
      true :=
  (fetchPrices_first_failure_aborts demoEnv [demoOkHolding] [] demoFailHolding demoState
    (by decide) (by decide)).2

/-! ## Lemmas about the indicator engine -/

/-- The SMA of a too-short series is `null`. -/
lemma sma_none_of_short (n : ℕ) (l : List ℚ) (h : l.length < n) :
    sma n l = none := by
  unfold sma
  rw [if_pos (Or.inl h)]

/-- C5: on every price series shorter than an indicator's minimum window
the indicator engine returns `null` for that field — it is a total
function, never `NaN` and never a thrown error. -/
theorem computeIndicators_null_on_short (l : List ℚ) :
    (l.length < 15 → (computeIndicators l).rsi14 = none) ∧
    (l.length < 50 → (computeIndicators l).sma50 = none) ∧
    (l.length < 55 → (computeIndicators l).sma50Slope = none) ∧
    (l.length < 26 → (computeIndicators l).macd.macd = none) ∧
    (l.length < 34 →
      (computeIndicators l).macd.signal = none ∧ (computeIndicators l).macd.hist = none) ∧
    (l.length < 20 →
      (computeIndicators l).bbPctB = none ∧ (computeIndicators l).bbWidth = none) ∧
    (l.length < 15 → (computeIndicators l).atrPct = none) := by
  refine ⟨?_, ?_, ?_, ?_, ?_, ?_, ?_⟩
  · intro h
    show rsi14 l = none
    unfold rsi14
    rw [if_pos h]
  · intro h
    show sma50 l = none
    unfold sma50
    exact sma_none_of_short 50 l h
  · intro h
    show sma50Slope l = none
    have hlen : (l.take (l.length - 5)).length < 50 := by
      rw [List.length_take]
      omega
    have h2 : sma 50 (l.take (l.length - 5)) = none := sma_none_of_short _ _ hlen
    unfold sma50Slope
    rw [h2]
    cases sma 50 l <;> rfl
  · intro h
    show (macdOf l).macd = none
    simp [macdOf, h]
  · intro h
    refine ⟨?_, ?_⟩
    · show (macdOf l).signal = none
      simp [macdOf, h]
    · show (macdOf l).hist = none
      simp [macdOf, h]
  · intro h
    refine ⟨?_, ?_⟩
    · show (bollingerCalc l).1 = none
      simp [bollingerCalc, h]
    · show (bollingerCalc l).2 = none
      simp [bollingerCalc, h]
  · intro h
    show atrPct l = none
    unfold atrPct
    rw [if_pos h]

/-- C5 witness: on a three-point series every gated field is `null`. -/
theorem computeIndicators_null_on_short_witness :
    (computeIndicators [100, 101, 102]).rsi14 = none ∧
    (computeIndicators [100, 101, 102]).sma50 = none ∧
    (computeIndicators [100, 101, 102]).sma50Slope = none ∧
    (computeIndicators [100, 101, 102]).macd.macd = none ∧
    (computeIndicators [100, 101, 102]).bbPctB = none ∧
    (computeIndicators [100, 101, 102]).atrPct = none :=
  ⟨(computeIndicators_null_on_short [100, 101, 102]).1 (by decide),
   (computeIndicators_null_on_short [100, 101, 102]).2.1 (by decide),
   (computeIndicators_null_on_short [100, 101, 102]).2.2.1 (by decide),
   (computeIndicators_null_on_short [100, 101, 102]).2.2.2.1 (by decide),
   ((computeIndicators_null_on_short [100, 101, 102]).2.2.2.2.2.1 (by decide)).1,
   (computeIndicators_null_on_short [100, 101, 102]).2.2.2.2.2.2 (by decide)⟩

/-! ## Lemmas about the decision scorer -/

/-- The RSI rule is bounded by 1 in absolute value. -/
lemma ruleRSI_abs_le (r : ℚ) : |ruleRSI r| ≤ 1 := by
  unfold ruleRSI
  split_ifs <;> rw [abs_le] <;> norm_num

/-- The MACD cross rule is bounded by 1 in absolute value. -/
lemma ruleMacdCross_abs_le (c : CrossState) : |ruleMacdCross c| ≤ 1 := by
  cases c <;> rw [ruleMacdCross, abs_le] <;> norm_num

/-- The %B rule is bounded by 1 in absolute value. -/
lemma rulePctB_abs_le (b : ℚ) : |rulePctB b| ≤ 1 := by
  unfold rulePctB
  split_ifs <;> rw [abs_le] <;> norm_num

/-- The slope rule is bounded by 1 in absolute value. -/
lemma ruleSlope_abs_le (s : ℚ) : |ruleSlope s| ≤ 1 := by
  unfold ruleSlope
  split_ifs <;> rw [abs_le] <;> norm_num

/-- Every applicable contribution has a nonnegative weight and a
sub-score bounded by 1 in absolute value. -/
lemma applicableParts_props (ind : IndicatorSet) :
    ∀ p ∈ applicableParts ind, 0 ≤ p.2.1 ∧ |p.2.2| ≤ 1 := by
  intro p hp
  unfold applicableParts at hp
  rcases List.mem_append.mp hp with h3 | hp4
  rotate_left
  · cases hcase : ind.sma50Slope with
    | none =>
      rw [hcase] at hp4
      simp at hp4
    | some s =>
      rw [hcase] at hp4
      simp only [List.mem_singleton] at hp4
      rw [hp4]
      exact ⟨by norm_num [wSlope], ruleSlope_abs_le s⟩
  rcases List.mem_append.mp h3 with h2 | hp3
  rotate_left
  · cases hcase : ind.bbPctB with
    | none =>
      rw [hcase] at hp3
      simp at hp3
    | some b =>
      rw [hcase] at hp3
      simp only [List.mem_singleton] at hp3
      rw [hp3]
      exact ⟨by norm_num [wBB], rulePctB_abs_le b⟩
  rcases List.mem_append.mp h2 with hp1 | hp2
  · cases hcase : ind.rsi14 with
    | none =>
      rw [hcase] at hp1
      simp at hp1
    | some r =>
      rw [hcase] at hp1
      simp only [List.mem_singleton] at hp1
      rw [hp1]
      exact ⟨by norm_num [wRSI], ruleRSI_abs_le r⟩
  · cases hcase : ind.macd.hist with
    | none =>
      rw [hcase] at hp2
      simp at hp2
    | some v =>
      rw [hcase] at hp2
      simp only [List.mem_singleton] at hp2
      rw [hp2]
      exact ⟨by norm_num [wMACD], ruleMacdCross_abs_le ind.macd.cross⟩

/-- The weighted numerator is dominated by the sum of the weights. -/
lemma weighted_sum_abs_le (ps : List (String × ℚ × ℚ))
    (h : ∀ p ∈ ps, 0 ≤ p.2.1 ∧ |p.2.2| ≤ 1) :
    |(ps.map (fun p => p.2.1 * p.2.2)).sum| ≤ (ps.map (fun p => p.2.1)).sum := by
  induction ps with
  | nil => simp
  | cons p ps ih =>
    have hp := h p (by simp)
    have hrest := ih (fun q hq => h q (by simp [hq]))
    simp only [List.map_cons, List.sum_cons]
    have h1 : |p.2.1 * p.2.2| ≤ p.2.1 := by
      rw [abs_mul, abs_of_nonneg hp.1]
      calc p.2.1 * |p.2.2| ≤ p.2.1 * 1 := mul_le_mul_of_nonneg_left hp.2 hp.1
        _ = p.2.1 := mul_one _
    calc |p.2.1 * p.2.2 + (ps.map (fun p => p.2.1 * p.2.2)).sum|
        ≤ |p.2.1 * p.2.2| + |(ps.map (fun p => p.2.1 * p.2.2)).sum| := abs_add _ _
      _ ≤ p.2.1 + (ps.map (fun p => p.2.1)).sum := add_le_add h1 hrest

/-- The sum of the applicable weights is nonnegative. -/
lemma weights_sum_nonneg (ps : List (String × ℚ × ℚ))
    (h : ∀ p ∈ ps, 0 ≤ p.2.1) :
    0 ≤ (ps.map (fun p => p.2.1)).sum := by
  refine List.sum_nonneg ?_
  intro x hx
  rcases List.mem_map.mp hx with ⟨p, hp, rfl⟩
  exact h p hp

/-- The composite score always lies in `[-1, 1]`. -/
lemma abs_scoreOf_le_one (ind : IndicatorSet) : |scoreOf ind| ≤ 1 := by
  unfold scoreOf
  by_cases hden : ((applicableParts ind).map (fun p => p.2.1)).sum = 0
  · rw [if_pos hden]
    norm_num
  · rw [if_neg hden]
    have hb := weighted_sum_abs_le (applicableParts ind) (applicableParts_props ind)
    have hw : 0 ≤ ((applicableParts ind).map (fun p => p.2.1)).sum :=
      weights_sum_nonneg (applicableParts ind) (fun p hp => (applicableParts_props ind p hp).1)
    have hpos : 0 < ((applicableParts ind).map (fun p => p.2.1)).sum :=
      lt_of_le_of_ne hw (Ne.symm hden)
    rw [abs_div, abs_of_pos hpos]
    exact div_le_one_of_le₀ hb (le_of_lt hpos)

/-- C6: the confidence percent equals `round(abs(score) * 100)` and lies
in `[0, 100]` for every scored indicator set. -/
theorem percent_round_abs_bounds (ind : IndicatorSet) :
    percentOf (scoreOf ind) = round (|scoreOf ind| * 100) ∧
    0 ≤ percentOf (scoreOf ind) ∧ percentOf (scoreOf ind) ≤ 100 := by
  refine ⟨rfl, ?_, ?_⟩
  · rw [percentOf, round_eq]
    have h0 : (0 : ℚ) ≤ |scoreOf ind| * 100 := by positivity
    have h2 : (0 : ℚ) ≤ |scoreOf ind| * 100 + 1 / 2 := by linarith
    exact Int.floor_nonneg.mpr h2
  · rw [percentOf, round_eq]
    have habs := abs_scoreOf_le_one ind
    have h1 : |scoreOf ind| * 100 ≤ 100 := by nlinarith [abs_nonneg (scoreOf ind)]
    have h2 : |scoreOf ind| * 100 + 1 / 2 ≤ (100 : ℚ) + 1 / 2 := by linarith
    have h3 : ⌊|scoreOf ind| * 100 + 1 / 2⌋ ≤ ⌊(100 : ℚ) + 1 / 2⌋ := Int.floor_le_floor h2
    have h4 : ⌊(100 : ℚ) + 1 / 2⌋ = 100 := by
      norm_num
    omega

/-- C7: with zero applicable indicators (all fields `null`) the scorer
produces score 0, decision `HOLD` and percent 0. -/
theorem zero_applicable_hold (ind : IndicatorSet)
    (h1 : ind.rsi14 = none) (h2 : ind.sma50 = none) (h3 : ind.sma50Slope = none)
    (h4 : ind.macd.macd = none) (h5 : ind.macd.signal = none) (h6 : ind.macd.hist = none)
    (h7 : ind.bbPctB = none) (h8 : ind.bbWidth = none) (h9 : ind.atrPct = none) :
    scoreOf ind = 0 ∧ decisionOf (scoreOf ind) = RefDecision.HOLD ∧
    percentOf (scoreOf ind) = 0 := by
  have hparts : applicableParts ind = [] := by
    unfold applicableParts
    rw [h1, h3, h6, h7]
    rfl
  have hscore : scoreOf ind = 0 := by
    unfold scoreOf
    rw [hparts]
    simp
  refine ⟨hscore, ?_, ?_⟩
  · rw [hscore]
    unfold decisionOf
    rw [if_neg (by norm_num [buyThreshold]), if_neg (by norm_num [sellThreshold])]
  · rw [hscore]
    unfold percentOf
    simp

/-- C7 witness: the empty price series yields all-`null` indicators,
score 0, `HOLD` and percent 0. -/
theorem zero_applicable_hold_witness :
    scoreOf (computeIndicators []) = 0 ∧
    decisionOf (scoreOf (computeIndicators [])) = RefDecision.HOLD ∧
    percentOf (scoreOf (computeIndicators [])) = 0 :=
  zero_applicable_hold (computeIndicators []) (by decide) (by decide) (by decide)
    (by decide) (by decide) (by decide) (by decide) (by decide) (by decide)

end WalletReferee
